import Mathlib

/-!
Shallow embedding of the interface-aegis-test code generator
(`scripts/generate.py`) and of the generated Python wrapper runtime
(`wrappers/python/aegis_interfaces/messaging/destination.py`, `topics.py`).

Python strings are modelled as Lean `String`, Python dicts as assoc lists
with insertion-order update semantics, and fallible code as `Except` or
`Option`.  Only the ASCII behaviour of `str.upper`, `str.lower`,
`str.title` is modelled, which covers every string the generator handles.
-/

deriving instance DecidableEq for Except

namespace Aegis

/-! ### Python string primitives -/

/-- ASCII uppercase of one character, as Python `str.upper` acts on ASCII. -/
def pyUpperChar (c : Char) : Char :=
  if ('a' ≤ c ∧ c ≤ 'z') then Char.ofNat (c.toNat - 32) else c

/-- ASCII lowercase of one character, as Python `str.lower` acts on ASCII. -/
def pyLowerChar (c : Char) : Char :=
  if ('A' ≤ c ∧ c ≤ 'Z') then Char.ofNat (c.toNat + 32) else c

/-- Python `s.upper()` (ASCII fragment). -/
def pyUpper (s : String) : String :=
  ⟨s.data.map pyUpperChar⟩

/-- Helper for `str.split(sep)`: first chunk plus remaining chunks. -/
def splitChunks (sep : Char) : List Char → List Char × List (List Char)
  | [] => ([], [])
  | c :: cs =>
    let r := splitChunks sep cs
    if c = sep then ([], r.1 :: r.2) else (c :: r.1, r.2)

/-- Python `s.split(sep)` on character lists; `"".split(sep) = [""]`. -/
def pySplitL (sep : Char) (cs : List Char) : List (List Char) :=
  (splitChunks sep cs).1 :: (splitChunks sep cs).2

/-- Python `sep.join(parts)` for a one-character separator. -/
def joinSep (sep : Char) : List (List Char) → List Char
  | [] => []
  | [g] => g
  | g :: gs => g ++ sep :: joinSep sep gs

/-- Python `s.split(sep)` on strings. -/
def pySplit (sep : Char) (s : String) : List String :=
  (pySplitL sep s.data).map String.mk

/-- Python `s.capitalize()` (ASCII fragment): first character uppercased,
the rest lowercased. -/
def pyCapitalizeL : List Char → List Char
  | [] => []
  | c :: cs => pyUpperChar c :: cs.map pyLowerChar

/-- Is `c` an ASCII letter. -/
def isAsciiAlpha (c : Char) : Bool :=
  ('a' ≤ c ∧ c ≤ 'z') ∨ ('A' ≤ c ∧ c ≤ 'Z')

/-- Python `s.title()` (ASCII fragment): the parameter records whether the
previous character was a letter. -/
def pyTitleAux : Bool → List Char → List Char
  | _, [] => []
  | prevAlpha, c :: cs =>
    let a := isAsciiAlpha c
    (if a && !prevAlpha then pyUpperChar c
     else if a then pyLowerChar c else c) :: pyTitleAux a cs

/-- Python `s.title()` (ASCII fragment). -/
def pyTitle (s : String) : String :=
  ⟨pyTitleAux false s.data⟩

/-- Python `s.replace(old, new)` for one-character patterns. -/
def pyReplaceChar (old new : Char) (s : String) : String :=
  ⟨s.data.map fun c => if c = old then new else c⟩

/-- Split a character list at its first occurrence of `sep`:
`some (before, after)`, or `none` when `sep` does not occur. -/
def breakAtFirst (sep : Char) : List Char → Option (List Char × List Char)
  | [] => none
  | c :: cs =>
    if c = sep then some ([], cs)
    else (breakAtFirst sep cs).map fun p => (c :: p.1, p.2)

/-- Python `pathlib.Path(name).stem`: the name without its last suffix.
A suffix exists only when the last dot is neither the first nor the last
character of the name. -/
def pyStemL (cs : List Char) : List Char :=
  match breakAtFirst '.' cs.reverse with
  | none => cs
  | some (sufRev, preRev) =>
    if preRev ≠ [] ∧ sufRev ≠ [] then preRev.reverse else cs

/-- Python `s.rsplit(".", 1)[0]`: everything before the last dot
(the whole string when there is no dot; possibly empty). -/
def rsplitHeadL (sep : Char) (cs : List Char) : List Char :=
  match breakAtFirst sep cs.reverse with
  | none => cs
  | some (_, preRev) => preRev.reverse

/-! ### Python dict (insertion-ordered association list) -/

/-- Python `d[k]` / `d.get(k)` as an optional lookup. -/
def dictGet (d : List (String × α)) (k : String) : Option α :=
  match d with
  | [] => none
  | (k₀, v₀) :: rest => if k₀ = k then some v₀ else dictGet rest k

/-- Python `d[k] = v`: replace in place when the key exists, else append. -/
def dictInsert (k : String) (v : α) : List (String × α) → List (String × α)
  | [] => [(k, v)]
  | (k₀, v₀) :: rest =>
    if k₀ = k then (k, v) :: rest else (k₀, v₀) :: dictInsert k v rest

/-- Python `list(d.keys())`. -/
def dictKeys (d : List (String × α)) : List String :=
  d.map Prod.fst

theorem dictGet_eq_none_iff (d : List (String × α)) (k : String) :
    dictGet d k = none ↔ k ∉ dictKeys d := by
  induction d with
  | nil => simp [dictGet, dictKeys]
  | cons p rest ih =>
    obtain ⟨k₀, v₀⟩ := p
    by_cases h : k₀ = k
    · subst h
      simp [dictGet, dictKeys]
    · have h' : ¬ k = k₀ := fun hc => h hc.symm
      simp [dictGet, dictKeys, h, h', ih]

theorem dictGet_isSome_iff (d : List (String × α)) (k : String) :
    (dictGet d k).isSome = true ↔ k ∈ dictKeys d := by
  simp [Option.isSome_iff_ne_none, ne_eq, dictGet_eq_none_iff]

theorem dictInsert_of_not_mem (d : List (String × α)) (k : String) (v : α)
    (h : k ∉ dictKeys d) : dictInsert k v d = d ++ [(k, v)] := by
  induction d with
  | nil => rfl
  | cons p rest ih =>
    obtain ⟨k₀, v₀⟩ := p
    simp only [dictKeys, List.map_cons, List.mem_cons] at h
    push_neg at h
    have h' : ¬ k₀ = k := fun hc => h.1 hc.symm
    simp [dictInsert, h', ih h.2]

/-! ### First-occurrence deduplication (dict-membership-guarded appends) -/

/-- Keys kept by a sequence of membership-guarded appends: the elements of
the list not already in `seen`, first occurrence kept. -/
def dedupFrom (seen : List String) : List String → List String
  | [] => []
  | r :: rs =>
    if r ∈ seen then dedupFrom seen rs else r :: dedupFrom (seen ++ [r]) rs

/-- First-occurrence deduplication of a list of keys. -/
def firstDedup (l : List String) : List String :=
  dedupFrom [] l

theorem mem_dedupFrom (seen l : List String) (x : String) :
    x ∈ dedupFrom seen l ↔ x ∈ l ∧ x ∉ seen := by
  induction l generalizing seen with
  | nil => simp [dedupFrom]
  | cons r rs ih =>
    by_cases h : r ∈ seen
    · simp only [dedupFrom, if_pos h, ih, List.mem_cons]
      constructor
      · tauto
      · rintro ⟨hx | hx, hs⟩
        · exact absurd (hx ▸ h) hs
        · exact ⟨hx, hs⟩
    · simp only [dedupFrom, if_neg h, List.mem_cons, ih, List.mem_append,
        List.mem_singleton]
      constructor
      · rintro (rfl | ⟨hx, hs⟩)
        · exact ⟨Or.inl rfl, h⟩
        · exact ⟨Or.inr hx, fun hc => hs (Or.inl hc)⟩
      · rintro ⟨rfl | hx, hs⟩
        · exact Or.inl rfl
        · by_cases hxr : x = r
          · exact Or.inl hxr
          · exact Or.inr ⟨hx, by tauto⟩

theorem nodup_dedupFrom (seen l : List String) :
    (dedupFrom seen l).Nodup := by
  induction l generalizing seen with
  | nil => exact List.nodup_nil
  | cons r rs ih =>
    by_cases h : r ∈ seen
    · simpa [dedupFrom, if_pos h] using ih seen
    · rw [dedupFrom, if_neg h]
      refine List.nodup_cons.mpr ⟨fun hc => ?_, ih (seen ++ [r])⟩
      exact ((mem_dedupFrom _ _ _).mp hc).2 (by simp)

theorem mem_firstDedup (l : List String) (x : String) :
    x ∈ firstDedup l ↔ x ∈ l := by
  simp [firstDedup, mem_dedupFrom]

theorem nodup_firstDedup (l : List String) : (firstDedup l).Nodup :=
  nodup_dedupFrom [] l

/-! ### Lexicographic string order (Python string comparison by code
points), executable by kernel reduction -/

/-- Lexicographic comparison of character lists by code point. -/
def listLe : List Char → List Char → Bool
  | [], _ => true
  | _ :: _, [] => false
  | a :: as, b :: bs =>
    if a < b then true else if b < a then false else listLe as bs

/-- Python `a <= b` on strings. -/
def strLe (a b : String) : Bool :=
  listLe a.data b.data

theorem listLe_cons_iff (a b : Char) (as bs : List Char) :
    listLe (a :: as) (b :: bs) = true ↔
      a < b ∨ (a = b ∧ listLe as bs = true) := by
  rcases lt_trichotomy a b with h | h | h
  · simp [listLe, h, h.ne]
  · subst h
    simp [listLe, lt_irrefl]
  · simp [listLe, h, h.ne.symm, not_lt_of_gt h, lt_asymm h]

theorem listLe_total (as bs : List Char) :
    listLe as bs = true ∨ listLe bs as = true := by
  induction as generalizing bs with
  | nil => exact Or.inl rfl
  | cons a as ih =>
    cases bs with
    | nil => exact Or.inr rfl
    | cons b bs =>
      rcases lt_trichotomy a b with h | h | h
      · exact Or.inl ((listLe_cons_iff a b as bs).mpr (Or.inl h))
      · subst h
        rcases ih bs with h | h
        · exact Or.inl ((listLe_cons_iff _ _ _ _).mpr (Or.inr ⟨rfl, h⟩))
        · exact Or.inr ((listLe_cons_iff _ _ _ _).mpr (Or.inr ⟨rfl, h⟩))
      · exact Or.inr ((listLe_cons_iff b a bs as).mpr (Or.inl h))

theorem listLe_trans {as bs cs : List Char} (h₁ : listLe as bs = true)
    (h₂ : listLe bs cs = true) : listLe as cs = true := by
  induction as generalizing bs cs with
  | nil => rfl
  | cons a as ih =>
    cases bs with
    | nil => exact absurd h₁ (by simp [listLe])
    | cons b bs =>
      cases cs with
      | nil => exact absurd h₂ (by simp [listLe])
      | cons c cs =>
        rcases (listLe_cons_iff a b as bs).mp h₁ with hab | ⟨rfl, hab⟩ <;>
          rcases (listLe_cons_iff _ c bs cs).mp h₂ with hbc | ⟨rfl, hbc⟩
        · exact (listLe_cons_iff a c as cs).mpr (Or.inl (lt_trans hab hbc))
        · exact (listLe_cons_iff a _ as cs).mpr (Or.inl hab)
        · exact (listLe_cons_iff _ c as cs).mpr (Or.inl hbc)
        · exact (listLe_cons_iff _ _ as cs).mpr (Or.inr ⟨rfl, ih hab hbc⟩)

theorem listLe_antisymm {as bs : List Char} (h₁ : listLe as bs = true)
    (h₂ : listLe bs as = true) : as = bs := by
  induction as generalizing bs with
  | nil =>
    cases bs with
    | nil => rfl
    | cons b bs => exact absurd h₂ (by simp [listLe])
  | cons a as ih =>
    cases bs with
    | nil => exact absurd h₁ (by simp [listLe])
    | cons b bs =>
      rcases (listLe_cons_iff a b as bs).mp h₁ with hab | ⟨rfl, hab⟩
      · rcases (listLe_cons_iff b a bs as).mp h₂ with hba | ⟨hba', hba⟩
        · exact absurd hba (lt_asymm hab)
        · exact absurd hab (hba' ▸ lt_irrefl a)
      · rcases (listLe_cons_iff a a bs as).mp h₂ with hba | ⟨hba', hba⟩
        · exact absurd hba (lt_irrefl a)
        · rw [ih hab hba]

theorem strLe_total (a b : String) : strLe a b = true ∨ strLe b a = true :=
  listLe_total a.data b.data

theorem strLe_trans {a b c : String} (h₁ : strLe a b = true)
    (h₂ : strLe b c = true) : strLe a c = true :=
  listLe_trans h₁ h₂

theorem strLe_antisymm {a b : String} (h₁ : strLe a b = true)
    (h₂ : strLe b a = true) : a = b := by
  cases a; cases b
  exact congrArg String.mk (listLe_antisymm h₁ h₂)

theorem strLe_of_not_le {a b : String} (h : ¬ strLe a b = true) :
    strLe b a = true :=
  (strLe_total a b).resolve_left h

/-! ### Deterministic sorting (Python `sorted`, key-based) -/

/-- Insert `a` into `l` before the first element whose key is not smaller,
as insertion sort does. -/
def insertByKey (key : α → String) (a : α) : List α → List α
  | [] => [a]
  | b :: l => if strLe (key a) (key b) then a :: b :: l else b :: insertByKey key a l

/-- Python `sorted(l, key=key)` (the result is a sorted permutation; with
pairwise-distinct keys it is the unique one). -/
def sortByKey (key : α → String) : List α → List α
  | [] => []
  | a :: l => insertByKey key a (sortByKey key l)

theorem perm_insertByKey (key : α → String) (a : α) (l : List α) :
    List.Perm (insertByKey key a l) (a :: l) := by
  induction l with
  | nil => rfl
  | cons b l ih =>
    by_cases h : strLe (key a) (key b) = true
    · simp [insertByKey, h]
    · rw [insertByKey, if_neg h]
      exact (ih.cons b).trans (List.Perm.swap a b l)

theorem perm_sortByKey (key : α → String) (l : List α) :
    List.Perm (sortByKey key l) l := by
  induction l with
  | nil => rfl
  | cons a l ih => exact (perm_insertByKey key a _).trans (ih.cons a)

/-- Sortedness of the result, as a `Pairwise` bound on keys. -/
def KeySorted (key : α → String) (l : List α) : Prop :=
  List.Pairwise (fun x y => strLe (key x) (key y) = true) l

theorem keySorted_insertByKey (key : α → String) (a : α) (l : List α)
    (h : KeySorted key l) : KeySorted key (insertByKey key a l) := by
  induction l with
  | nil => simp [insertByKey, KeySorted]
  | cons b l ih =>
    rcases List.pairwise_cons.mp h with ⟨hb, hl⟩
    by_cases hab : strLe (key a) (key b) = true
    · rw [insertByKey, if_pos hab]
      refine List.pairwise_cons.mpr ⟨?_, h⟩
      intro y hy
      rcases List.mem_cons.mp hy with rfl | hy
      · exact hab
      · exact strLe_trans hab (hb y hy)
    · rw [insertByKey, if_neg hab]
      refine List.pairwise_cons.mpr ⟨?_, ih hl⟩
      intro y hy
      rcases List.mem_cons.mp ((perm_insertByKey key a l).mem_iff.mp hy) with rfl | hy'
      · exact strLe_of_not_le hab
      · exact hb y hy'

theorem keySorted_sortByKey (key : α → String) (l : List α) :
    KeySorted key (sortByKey key l) := by
  induction l with
  | nil => exact List.Pairwise.nil
  | cons a l ih => exact keySorted_insertByKey key a _ ih

/-- Two sorted lists that are permutations of each other and whose keys are
pairwise distinct are equal: sorting by a duplicate-free key is unique. -/
theorem keySorted_eq_of_perm (key : α → String) :
    ∀ l₁ l₂ : List α, List.Perm l₁ l₂ → KeySorted key l₁ → KeySorted key l₂ →
      (l₁.map key).Nodup → l₁ = l₂ := by
  intro l₁
  induction l₁ with
  | nil => intro l₂ hp _ _ _; simpa using hp.symm
  | cons a t₁ ih =>
    intro l₂ hp hs₁ hs₂ hn
    match l₂ with
    | [] => exact absurd hp.symm (by simp)
    | b :: t₂ =>
      have hab : a = b := by
        by_contra hne
        have ha2 : a ∈ b :: t₂ := hp.mem_iff.mp (List.mem_cons_self a t₁)
        have hb1 : b ∈ a :: t₁ := hp.symm.mem_iff.mp (List.mem_cons_self b t₂)
        have hat2 : a ∈ t₂ := by
          rcases List.mem_cons.mp ha2 with h | h
          · exact absurd h hne
          · exact h
        have hbt1 : b ∈ t₁ := by
          rcases List.mem_cons.mp hb1 with h | h
          · exact absurd h.symm hne
          · exact h
        have h₁ : strLe (key a) (key b) = true :=
          (List.pairwise_cons.mp hs₁).1 b hbt1
        have h₂ : strLe (key b) (key a) = true :=
          (List.pairwise_cons.mp hs₂).1 a hat2
        have hkey : key a = key b := strLe_antisymm h₁ h₂
        have : key a ∉ t₁.map key := (List.nodup_cons.mp (by simpa using hn)).1
        exact this (hkey ▸ List.mem_map_of_mem key hbt1)
      subst hab
      have ht : List.Perm t₁ t₂ := hp.cons_inv
      have := ih t₂ ht (List.pairwise_cons.mp hs₁).2 (List.pairwise_cons.mp hs₂).2
        (List.nodup_cons.mp (by simpa using hn)).2
      rw [this]

/-- Sorting is invariant under permutation of the input when the keys are
pairwise distinct (the heart of run-to-run determinism). -/
theorem sortByKey_eq_of_perm (key : α → String) (l₁ l₂ : List α)
    (hp : List.Perm l₁ l₂) (hn : (l₁.map key).Nodup) :
    sortByKey key l₁ = sortByKey key l₂ := by
  refine keySorted_eq_of_perm key _ _ ?_ (keySorted_sortByKey key l₁)
    (keySorted_sortByKey key l₂) ?_
  · exact (perm_sortByKey key l₁).trans (hp.trans (perm_sortByKey key l₂).symm)
  · exact (((perm_sortByKey key l₁).map key).nodup_iff).mpr hn

/-! ### Data model (`generate.py` dataclasses)

A parsed JSON schema document is modelled as an insertion-ordered mapping
from field name to field value; field values beyond `title` are never
inspected by the generator, so they are kept opaque as strings.  The whole
mapping stands for the raw schema body (what `generate_asyncapi` copies
verbatim). -/

/-- A parsed event schema document. -/
def SchemaDoc := List (String × String)
deriving DecidableEq, Inhabited

/-- `Event` dataclass of `generate.py`. -/
structure Event where
  name : String
  schema_path : String
  schema : SchemaDoc
deriving DecidableEq, Inhabited

/-- `Event.schema_name`: the declared title, falling back to the
filename-derived base name. -/
def Event.schema_name (e : Event) : String :=
  (dictGet e.schema "title").getD e.name

/-- `Event.description`. -/
def Event.descriptionText (e : Event) : String :=
  (dictGet e.schema "description").getD ""

/-- `Topic` dataclass of `generate.py`. -/
structure Topic where
  name : String
  topic : String
  description : String
  produced_by : List String
  consumed_by : List String
  subscriptions : List (String × String)
  event_schema : String
  event_type : String
deriving DecidableEq, Inhabited

/-- `Topic.get_default_consumer`: the sole consumer when there is exactly
one, else `None`. -/
def Topic.get_default_consumer (t : Topic) : Option String :=
  if t.consumed_by.length = 1 then t.consumed_by.head? else none

/-- `Topic.get_java_constant_name`:
`"_".join(self.name.upper().split("-"))`. -/
def Topic.get_java_constant_name (t : Topic) : String :=
  ⟨joinSep '_' (pySplitL '-' (pyUpper t.name).data)⟩

/-! ### Loaders (`Generator.load_events`, `Generator.load_topics`) -/

/-- Base identifier derived from an event schema filename:
`json_file.stem.rsplit(".", 1)[0]`. -/
def baseNameOf (filename : String) : String :=
  ⟨rsplitHeadL '.' (pyStemL filename.data)⟩

/-- The `Event` built by `load_events` for one schema file. -/
def eventOfFile (f : String × SchemaDoc) : Event :=
  { name := baseNameOf f.1
    schema_path := "events/" ++ f.1
    schema := f.2 }

/-- `load_events`: files are visited in sorted filename order and stored in
the events dict under `event.schema_name` (`self.events[...] = event`). -/
def loadEvents (files : List (String × SchemaDoc)) : List (String × Event) :=
  (sortByKey Prod.fst files).foldl
    (fun d f => dictInsert (eventOfFile f).schema_name (eventOfFile f) d) []

/-- The `payload` sub-object of a topic definition file. -/
structure PayloadDoc where
  schemaField : Option String
  typeField : Option String
deriving DecidableEq, Inhabited

/-- A parsed topic definition file, with every field optional so that the
required-field validation of `load_topics` can be expressed. -/
structure TopicDoc where
  nameField : Option String
  topicField : Option String
  descriptionField : Option String
  producedByField : Option (List String)
  consumedByField : Option (List String)
  subscriptionsField : Option (List (String × String))
  payloadField : Option PayloadDoc
deriving DecidableEq, Inhabited

/-- Fatal conditions during loading. -/
inductive LoadError where
  /-- `ValueError(f"Topic {file} missing required field: {field}")`. -/
  | missingField (file : String) (field : String)
  /-- `IndexError` from `topic.topic.split(".")[1]` when the wire string
  has fewer than two dot-separated segments. -/
  | domainIndex (file : String)
deriving DecidableEq

/-- The required-field check and `Topic(...)` construction of
`load_topics`, for one file. -/
def parseTopic (file : String) (doc : TopicDoc) : Except LoadError Topic :=
  if doc.nameField.isNone then .error (.missingField file "name")
  else if doc.topicField.isNone then .error (.missingField file "topic")
  else if doc.producedByField.isNone then .error (.missingField file "producedBy")
  else if doc.consumedByField.isNone then .error (.missingField file "consumedBy")
  else if doc.subscriptionsField.isNone then .error (.missingField file "subscriptions")
  else if doc.payloadField.isNone then .error (.missingField file "payload")
  else
    let payload := doc.payloadField.getD ⟨none, none⟩
    .ok
      { name := doc.nameField.getD ""
        topic := doc.topicField.getD ""
        description := doc.descriptionField.getD ""
        produced_by := doc.producedByField.getD []
        consumed_by := doc.consumedByField.getD []
        subscriptions := doc.subscriptionsField.getD []
        event_schema := payload.schemaField.getD ""
        event_type := payload.typeField.getD "event" }

/-- `topic.topic.split(".")[1]`: the domain token, second dot-separated
segment of the wire-level topic string. -/
def domainOf (t : Topic) : Option String :=
  (pySplit '.' t.topic).get? 1

/-- Append `t` to the bucket of domain `d`, creating the bucket at the end
of the dict when absent (`self.domains[domain].append(topic)`). -/
def bucketAdd (d : String) (t : Topic) :
    List (String × List Topic) → List (String × List Topic)
  | [] => [(d, [t])]
  | (d₀, ts) :: rest =>
    if d₀ = d then (d, ts ++ [t]) :: rest else (d₀, ts) :: bucketAdd d t rest

/-- One iteration of the `load_topics` loop. -/
def loadTopicStep (acc : List Topic × List (String × List Topic))
    (f : String × TopicDoc) :
    Except LoadError (List Topic × List (String × List Topic)) := do
  let t ← parseTopic f.1 f.2
  match domainOf t with
  | none => .error (.domainIndex f.1)
  | some d => .ok (acc.1 ++ [t], bucketAdd d t acc.2)

/-- `load_topics`: files visited in sorted filename order; returns the flat
topic list and the domain buckets. -/
def loadTopics (files : List (String × TopicDoc)) :
    Except LoadError (List Topic × List (String × List Topic)) :=
  (sortByKey Prod.fst files).foldlM loadTopicStep ([], [])

/-! ### Cross-reference validator (`Generator.validate`) -/

/-- Fatal conditions raised by `validate`. -/
inductive ValidationError where
  /-- `Topic '{name}' references unknown event schema: {ref}`. -/
  | unresolvedRef (topicName : String) (ref : String)
  /-- `Topic '{name}' has invalid type '{kind}'. Only 'event' is supported.`. -/
  | badType (topicName : String) (kind : String)
deriving DecidableEq

/-- `validate`: for each topic in list order, the event reference is
checked first, then the payload kind; the first violation aborts. -/
def validate (events : List (String × Event)) : List Topic →
    Except ValidationError Unit
  | [] => .ok ()
  | t :: rest =>
    if (dictGet events t.event_schema).isNone then
      .error (.unresolvedRef t.name t.event_schema)
    else if t.event_type ≠ "event" then
      .error (.badType t.name t.event_type)
    else
      validate events rest

/-! ### Generated Python runtime
(`wrappers/python/aegis_interfaces/messaging/destination.py`) -/

/-- The recoverable conditions raised by the generated `Destination` class,
with the data interpolated into their messages kept structurally. -/
inductive DestError where
  /-- `KeyError`: unknown consumer `consumer` for topic `topicName`;
  `validConsumers` is `list(self.subscriptions.keys())`. -/
  | unknownConsumer (consumer : String) (topicName : String)
      (validConsumers : List String)
  /-- `ValueError`: no default consumer for topic `topicName`;
  `availableConsumers` is `list(self.subscriptions.keys())`. -/
  | ambiguousDefault (topicName : String) (availableConsumers : List String)
deriving DecidableEq

/-- The `Destination` frozen dataclass.  An `EventType` enum member is the
pair of its member name and its value. -/
structure Destination where
  name : String
  topic : String
  subscriptions : List (String × String)
  event_type : String × String
  schema : String
  default_consumer : Option String := none
deriving DecidableEq, Inhabited

/-- `Destination.get_subscription(consumer)`. -/
def Destination.get_subscription (d : Destination) (consumer : String) :
    Except DestError String :=
  match dictGet d.subscriptions consumer with
  | none =>
    .error (.unknownConsumer consumer d.name (dictKeys d.subscriptions))
  | some s => .ok s

/-- The `Destination.subscription` property (zero-argument default
accessor). -/
def Destination.subscription (d : Destination) : Except DestError String :=
  match d.default_consumer with
  | none => .error (.ambiguousDefault d.name (dictKeys d.subscriptions))
  | some c => d.get_subscription c

/-- Python truthiness of the optional default consumer: both emitters gate
the emission of a default consumer on `if default_consumer`, under which
`None` and the empty string are both falsy (`generate.py:658` for Python,
331 and 345 for Java). -/
def truthyConsumer : Option String → Option String
  | none => none
  | some s => if s = "" then none else some s

/-- The `Destination(...)` literal that `_generate_python_topics` emits for
a topic (its `EventType` member is the one `_generate_python_destination`
emits for the same topic).  The `default_consumer` argument is rendered as
`None` unless `get_default_consumer()` is truthy. -/
def destinationOfTopic (t : Topic) : Destination :=
  { name := t.name
    topic := t.topic
    subscriptions := t.subscriptions
    event_type := (pyUpper t.event_schema, t.topic)
    schema := t.event_schema
    default_consumer := truthyConsumer t.get_default_consumer }

/-! ### Shipped Python registry
(`wrappers/python/aegis_interfaces/messaging/topics.py`) -/

namespace Topics

/-- `Topics.SPECIFICATION_CREATED` as shipped. -/
def SPECIFICATION_CREATED : Destination :=
  { name := "specification-created"
    topic := "aegis-test.specification.created"
    subscriptions :=
      [("analytics", "analytics.aegis-test.specification.created"),
       ("notifications", "notifications.aegis-test.specification.created")]
    event_type :=
      ("SPECIFICATIONCREATEDEVENTV1", "aegis-test.specification.created")
    schema := "SpecificationCreatedEventV1"
    default_consumer := none }

/-- `Topics.SPECIFICATION_REQUESTED` as shipped. -/
def SPECIFICATION_REQUESTED : Destination :=
  { name := "specification-requested"
    topic := "aegis-test.specification.requested"
    subscriptions :=
      [("orchestrator", "orchestrator.aegis-test.specification.requested")]
    event_type :=
      ("SPECIFICATIONREQUESTEDEVENTV1", "aegis-test.specification.requested")
    schema := "SpecificationRequestedEventV1"
    default_consumer := some "orchestrator" }

end Topics

/-! ### Interface document emitter (`Generator.generate_asyncapi`)

The fixed header, server block and message-trait block are static
configuration; the computed parts are the three keyed collections. -/

/-- One channel entry.  The channel `messages` sub-dict always has the
single key `topic.event_schema`, kept here with its `$ref` target. -/
structure Channel where
  address : String
  title : String
  description : String
  messageKey : String
  messageRef : String
  bindingSchemaName : String
  bindingEncoding : String
deriving DecidableEq, Inhabited

/-- One entry of `components.messages`. -/
structure MessageEntry where
  name : String
  title : String
  contentType : String
  description : String
  payloadRef : String
  traitRef : String
deriving DecidableEq, Inhabited

/-- The computed collections of the asyncapi document. -/
structure AsyncApiDoc where
  channels : List (String × Channel)
  messages : List (String × MessageEntry)
  schemas : List (String × SchemaDoc)
deriving DecidableEq, Inhabited

/-- The topology footer: `Producer: ...\nConsumer: ...` with every newline
then replaced by `\n- `. -/
def topologyText (t : Topic) : String :=
  "Producer: " ++ String.intercalate ", " t.produced_by ++
    "\nConsumer: " ++ String.intercalate ", " t.consumed_by

/-- The channel entry built for one topic (lines 244-261 of
`generate.py`); it reads only the topic, never the event. -/
def channelOfTopic (t : Topic) : Channel :=
  { address := "projects/{projectId}/topics/" ++ t.topic
    title := pyTitle (pyReplaceChar '-' ' ' t.name)
    description := t.description ++ "\n\n**Topology:**\n- " ++
      ⟨(topologyText t).data.flatMap
        fun c => if c = '\n' then ['\n', '-', ' '] else [c]⟩ ++
      "\n- Guarantee: at-least-once"
    messageKey := t.event_schema
    messageRef := "#/components/messages/" ++ t.event_schema
    bindingSchemaName := t.event_schema
    bindingEncoding := "json" }

/-- The message entry built for an event reference `r` resolving to event
`e`. -/
def messageOfEvent (r : String) (e : Event) : MessageEntry :=
  { name := r
    title := e.schema_name
    contentType := "application/json"
    description := e.descriptionText
    payloadRef := "#/components/schemas/" ++ r
    traitRef := "#/components/messageTraits/CommonEventMetadata" }

/-- The message entry keyed by reference `r`, as determined by the events
dict (total; the `none` branch is unreachable once validation passed). -/
def messageEntry (events : List (String × Event)) (r : String) :
    MessageEntry :=
  match dictGet events r with
  | some e => messageOfEvent r e
  | none => messageOfEvent r default

/-- The schema body stored under reference `r` (the raw event schema,
verbatim). -/
def schemaBody (events : List (String × Event)) (r : String) : SchemaDoc :=
  match dictGet events r with
  | some e => e.schema
  | none => default

/-- One iteration of the channel/message/schema loop of
`generate_asyncapi`; `events[topic.event_schema]` raises when the
reference is unresolved. -/
def asyncapiStep (events : List (String × Event)) (st : AsyncApiDoc)
    (t : Topic) : Except String AsyncApiDoc :=
  match dictGet events t.event_schema with
  | none => .error t.event_schema
  | some e =>
    .ok
      { channels := dictInsert t.name (channelOfTopic t) st.channels
        messages :=
          if (dictGet st.messages t.event_schema).isSome then st.messages
          else st.messages ++ [(t.event_schema, messageOfEvent t.event_schema e)]
        schemas :=
          if (dictGet st.schemas t.event_schema).isSome then st.schemas
          else st.schemas ++ [(t.event_schema, e.schema)] }

/-- `generate_asyncapi`: fold the loop over the topic list, starting from
empty collections. -/
def generateAsyncapi (events : List (String × Event)) (topics : List Topic) :
    Except String AsyncApiDoc :=
  topics.foldlM (asyncapiStep events) ⟨[], [], []⟩

/-! ### Java emitter (`generate_java_wrappers`, `_generate_java_class`,
`_generate_java_topics_registry`)

The emitted sources are modelled by the data interpolated into them; the
surrounding fixed text is a rendering detail the spec puts out of scope. -/

/-- Class name transform at `generate.py:300` (also 440 and 479):
`"".join(word.capitalize() for word in topic.name.split("-"))`. -/
def javaClassName (s : String) : String :=
  ⟨((pySplitL '-' s.data).map pyCapitalizeL).flatten⟩

/-- Constant name as computed inside `_generate_java_class`
(`generate.py:346`). -/
def javaClassConstName (s : String) : String :=
  ⟨joinSep '_' (pySplitL '-' (pyUpper s).data)⟩

/-- Constant name as computed inside `_generate_java_topics_registry`
(`generate.py:480`). -/
def javaRegistryConstName (s : String) : String :=
  ⟨joinSep '_' (pySplitL '-' (pyUpper s).data)⟩

/-- Constant name as computed inside `_generate_python_topics`
(`generate.py:650`). -/
def pythonConstName (s : String) : String :=
  ⟨joinSep '_' (pySplitL '-' (pyUpper s).data)⟩

/-- The data rendered into one generated Java destination class. -/
structure JavaClassModel where
  domain : String
  className : String
  name : String
  topic : String
  schema : String
  defaultConsumer : Option String
  subscriptions : List (String × String)
  constName : String
deriving DecidableEq, Inhabited

/-- The Java class `_generate_java_class` renders for a topic.  The
`DEFAULT_CONSUMER` constant and the delegating accessor are emitted only
when `get_default_consumer()` is truthy (`if default_consumer` at
`generate.py:331` and 345); otherwise the class carries no default and its
zero-argument accessor throws. -/
def javaClassOf (t : Topic) : JavaClassModel :=
  { domain := (domainOf t).getD ""
    className := javaClassName t.name
    name := t.name
    topic := t.topic
    schema := t.event_schema
    defaultConsumer := truthyConsumer t.get_default_consumer
    subscriptions := t.subscriptions
    constName := javaClassConstName t.name }

/-- One registry constant of `Topics.java`. -/
structure JavaRegistryEntry where
  constName : String
  className : String
  producers : String
  consumers : String
  schema : String
deriving DecidableEq, Inhabited

/-- The data rendered into `Topics.java`: the sorted import list and one
section per domain, domains sorted by name. -/
structure JavaRegistryModel where
  imports : List String
  sections : List (String × List JavaRegistryEntry)
deriving DecidableEq, Inhabited

/-- The registry entry for one topic (`generate.py:478-492`). -/
def javaRegistryEntryOf (t : Topic) : JavaRegistryEntry :=
  { constName := javaRegistryConstName t.name
    className := javaClassName t.name
    producers := String.intercalate ", " t.produced_by
    consumers := String.intercalate ", " t.consumed_by
    schema := t.event_schema }

/-- `_generate_java_topics_registry`. -/
def javaRegistryOf (topics : List Topic)
    (domains : List (String × List Topic)) : JavaRegistryModel :=
  { imports := sortByKey id (topics.map fun t =>
      "import com.interfaces.aegis.test.topics." ++ (domainOf t).getD "" ++
        "." ++ javaClassName t.name ++ ";")
    sections := (sortByKey id (dictKeys domains)).map fun d =>
      (d, ((dictGet domains d).getD []).map javaRegistryEntryOf) }

/-! ### Python emitter (`generate_python_wrappers`,
`_generate_python_destination`, `_generate_python_topics`) -/

/-- The `EventType` members emitted into `destination.py`: one per topic
(no deduplication), in order of topic `event_schema` (`sorted(self.topics,
key=lambda t: t.event_schema)`), named by the uppercased reference and
valued by the wire-level topic string. -/
def eventTypeMembers (topics : List Topic) : List (String × String) :=
  (sortByKey Topic.event_schema topics).map fun t =>
    (pyUpper t.event_schema, t.topic)

/-- The data rendered into the generated `destination.py` (the
`Destination` class text is fixed; only the enum members vary). -/
structure PyDestinationModel where
  members : List (String × String)
deriving DecidableEq, Inhabited

/-- One registry constant of the generated `topics.py`. -/
structure PyConstEntry where
  constName : String
  dest : Destination
deriving DecidableEq, Inhabited

/-- The data rendered into the generated `topics.py`: one section per
domain, domains sorted by name. -/
structure PyTopicsModel where
  sections : List (String × List PyConstEntry)
deriving DecidableEq, Inhabited

/-- `_generate_python_topics`. -/
def pyTopicsOf (domains : List (String × List Topic)) : PyTopicsModel :=
  { sections := (sortByKey id (dictKeys domains)).map fun d =>
      (d, ((dictGet domains d).getD []).map fun t =>
        { constName := pythonConstName t.name
          dest := destinationOfTopic t }) }

/-! ### The complete pipeline (`Generator.run`) -/

/-- The content written to one output file. -/
inductive FileContent where
  | asyncapiFile (d : AsyncApiDoc)
  | javaClassFile (c : JavaClassModel)
  | javaRegistryFile (r : JavaRegistryModel)
  | pyDestinationFile (m : PyDestinationModel)
  | pyRegistryFile (m : PyTopicsModel)
deriving DecidableEq

/-- Path of the Java wrapper class generated for a topic. -/
def javaClassPath (t : Topic) : String :=
  "wrappers/java/src/main/java/com/interfaces/aegis/test/topics/" ++
    (domainOf t).getD "" ++ "/" ++ javaClassName t.name ++ ".java"

/-- Path of the Java registry. -/
def javaRegistryPath : String :=
  "wrappers/java/src/main/java/com/interfaces/aegis/test/messaging/Topics.java"

/-- Path of the generated Python destination module. -/
def pyDestinationPath : String :=
  "wrappers/python/aegis_interfaces/messaging/destination.py"

/-- Path of the generated Python registry module. -/
def pyTopicsPath : String :=
  "wrappers/python/aegis_interfaces/messaging/topics.py"

/-- The input of one generation run: the directory listings of `events/`
and `topics/` with parsed file contents, in arbitrary enumeration order. -/
structure GenInput where
  eventFiles : List (String × SchemaDoc)
  topicFiles : List (String × TopicDoc)
deriving DecidableEq

/-- A fatal generator-time condition. -/
inductive GenError where
  | load (e : LoadError)
  | validation (e : ValidationError)
  /-- `KeyError` while emitting (unreachable once validation passed). -/
  | missingEvent (ref : String)
deriving DecidableEq

/-- `Generator.run`: load events, load topics, validate, then emit; on any
fatal condition the run aborts having written nothing (validation precedes
every write).  The first component lists the written files in write
order. -/
def run (input : GenInput) :
    List (String × FileContent) × Option GenError :=
  let events := loadEvents input.eventFiles
  match loadTopics input.topicFiles with
  | .error e => ([], some (.load e))
  | .ok (topics, domains) =>
    match validate events topics with
    | .error e => ([], some (.validation e))
    | .ok _ =>
      match generateAsyncapi events topics with
      | .error r => ([], some (.missingEvent r))
      | .ok doc =>
        (("asyncapi.yaml", .asyncapiFile doc) ::
          (topics.map fun t => (javaClassPath t, .javaClassFile (javaClassOf t))) ++
          [(javaRegistryPath, .javaRegistryFile (javaRegistryOf topics domains)),
           (pyDestinationPath, .pyDestinationFile ⟨eventTypeMembers topics⟩),
           (pyTopicsPath, .pyRegistryFile (pyTopicsOf domains))],
         none)

/-- The topics a run loads (empty when loading fails); helper for stating
claims about successful runs. -/
def loadedTopics (input : GenInput) : List Topic :=
  match loadTopics input.topicFiles with
  | .error _ => []
  | .ok (topics, _) => topics

/-! ### Sample data used to instantiate theorems with hypotheses -/

/-- A topic shaped like the shipped `specification-requested` topology
file (one consumer). -/
def sampleRequested : Topic :=
  { name := "specification-requested"
    topic := "aegis-test.specification.requested"
    description := "Specification requested"
    produced_by := ["portal"]
    consumed_by := ["orchestrator"]
    subscriptions :=
      [("orchestrator", "orchestrator.aegis-test.specification.requested")]
    event_schema := "SpecificationRequestedEventV1"
    event_type := "event" }

/-- A topic shaped like the shipped `specification-created` topology file
(two consumers). -/
def sampleCreated : Topic :=
  { name := "specification-created"
    topic := "aegis-test.specification.created"
    description := "Specification created"
    produced_by := ["orchestrator"]
    consumed_by := ["analytics", "notifications"]
    subscriptions :=
      [("analytics", "analytics.aegis-test.specification.created"),
       ("notifications", "notifications.aegis-test.specification.created")]
    event_schema := "SpecificationCreatedEventV1"
    event_type := "event" }

/-- A loadable topic whose `consumedBy` list and `subscriptions` keys
disagree: consumer `beta` is declared but has no subscription entry.
Nothing in the loader or validator rules this out. -/
def mismatchTopic : Topic :=
  { name := "sample-topic"
    topic := "aegis-test.sample.topic"
    description := ""
    produced_by := ["svc"]
    consumed_by := ["alpha", "beta"]
    subscriptions := [("alpha", "alpha.aegis-test.sample.topic")]
    event_schema := "SampleEventV1"
    event_type := "event" }

/-! ### Claim C1 -/

/-- A loadable topic whose sole declared consumer is the empty string.
Nothing in the loader or validator forbids it, yet the empty string is
falsy, so the emitter renders `default_consumer=None`. -/
def emptyConsumerTopic : Topic :=
  { name := "edge-topic"
    topic := "aegis-test.edge.topic"
    description := ""
    produced_by := ["svc"]
    consumed_by := [""]
    subscriptions := [("", "edge.aegis-test.edge.topic")]
    event_schema := "EdgeEventV1"
    event_type := "event" }

/-- C1 counterexample: a topic with exactly one consumer, the empty
string, generates a `Destination` whose `default_consumer` field is
`None` — not that consumer, as the claim asserts — because the emitter
gates the default on Python truthiness; its zero-argument accessor
signals the ambiguous-default condition while the explicit lookup of that
consumer succeeds, so the two disagree. -/
theorem c1_default_accessor_counterexample :
    emptyConsumerTopic.consumed_by = [""] ∧
    (destinationOfTopic emptyConsumerTopic).default_consumer = none ∧
    (destinationOfTopic emptyConsumerTopic).subscription =
      .error (.ambiguousDefault "edge-topic" [""]) ∧
    (destinationOfTopic emptyConsumerTopic).get_subscription "" =
      .ok "edge.aegis-test.edge.topic" ∧
    (destinationOfTopic emptyConsumerTopic).subscription ≠
      (destinationOfTopic emptyConsumerTopic).get_subscription "" := by
  decide

/-- C1 (corrected): for every generated `Destination`, when the topic has
exactly one consumer `c` and `c` is nonempty (the emitter's truthiness
gate), the `default_consumer` field is `c` and the zero-argument
`subscription` accessor agrees with the explicit lookup
`get_subscription c`; when the topic has zero or two-or-more consumers, or
its sole consumer is the empty string (`default_consumer` absent in all
these cases), the accessor signals the ambiguous-default condition naming
all valid consumers (the subscription keys).  In the shipped registry,
`Topics.SPECIFICATION_REQUESTED` returns
`orchestrator.aegis-test.specification.requested` and
`Topics.SPECIFICATION_CREATED` signals the ambiguous-default condition. -/
theorem c1_default_accessor_amended :
    (∀ (t : Topic) (c : String), t.consumed_by = [c] → c ≠ "" →
      (destinationOfTopic t).default_consumer = some c ∧
      (destinationOfTopic t).subscription =
        (destinationOfTopic t).get_subscription c) ∧
    (∀ t : Topic, t.consumed_by.length ≠ 1 →
      (destinationOfTopic t).subscription =
        .error (.ambiguousDefault t.name (dictKeys t.subscriptions))) ∧
    (∀ t : Topic, t.consumed_by = [""] →
      (destinationOfTopic t).subscription =
        .error (.ambiguousDefault t.name (dictKeys t.subscriptions))) ∧
    Topics.SPECIFICATION_REQUESTED.subscription =
      .ok "orchestrator.aegis-test.specification.requested" ∧
    Topics.SPECIFICATION_CREATED.subscription =
      .error (.ambiguousDefault "specification-created"
        ["analytics", "notifications"]) := by
  refine ⟨?_, ?_, ?_, by decide, by decide⟩
  · intro t c h hc
    have hd : t.get_default_consumer = some c := by
      simp [Topic.get_default_consumer, h]
    constructor
    · simp [destinationOfTopic, truthyConsumer, hd, hc]
    · simp [Destination.subscription, destinationOfTopic, truthyConsumer,
        hd, hc]
  · intro t h
    have hd : t.get_default_consumer = none := by
      simp [Topic.get_default_consumer, h]
    simp [Destination.subscription, destinationOfTopic, truthyConsumer, hd]
  · intro t h
    have hd : t.get_default_consumer = some "" := by
      simp [Topic.get_default_consumer, h]
    simp [Destination.subscription, destinationOfTopic, truthyConsumer, hd]

/-- Witness for C1 (amended) at the two sample topics and the
empty-consumer edge topic. -/
theorem c1_default_accessor_amended_witness :
    ((destinationOfTopic sampleRequested).default_consumer =
        some "orchestrator" ∧
      (destinationOfTopic sampleRequested).subscription =
        (destinationOfTopic sampleRequested).get_subscription
          "orchestrator") ∧
    (destinationOfTopic sampleCreated).subscription =
      .error (.ambiguousDefault sampleCreated.name
        (dictKeys sampleCreated.subscriptions)) ∧
    (destinationOfTopic emptyConsumerTopic).subscription =
      .error (.ambiguousDefault emptyConsumerTopic.name
        (dictKeys emptyConsumerTopic.subscriptions)) :=
  ⟨c1_default_accessor_amended.1 sampleRequested "orchestrator" rfl
      (by decide),
   c1_default_accessor_amended.2.1 sampleCreated (by decide),
   c1_default_accessor_amended.2.2.1 emptyConsumerTopic rfl⟩

/-! ### Claim C2 -/

/-- C2 counterexample: the consumer-lookup error lists the keys of the
`subscriptions` mapping, not the declared `consumedBy` list.  On
`mismatchTopic` (declared consumers `alpha, beta`; subscription keys only
`alpha`) the lookup of the unknown consumer `gamma` names `[alpha]`, not
`[alpha, beta]` as the claim states. -/
theorem c2_lookup_error_counterexample :
    dictGet mismatchTopic.subscriptions "gamma" = none ∧
    (destinationOfTopic mismatchTopic).get_subscription "gamma" =
      .error (.unknownConsumer "gamma" "sample-topic" ["alpha"]) ∧
    (destinationOfTopic mismatchTopic).get_subscription "gamma" ≠
      .error (.unknownConsumer "gamma" mismatchTopic.name
        mismatchTopic.consumed_by) := by
  decide

/-- C2 (corrected): for every `Destination` and every consumer identifier
not present in its `subscriptions` mapping, `get_subscription` signals the
consumer-lookup error naming that consumer and listing exactly the keys of
the `subscriptions` mapping (for a generated destination, the topic's
declared subscription keys; these coincide with the `consumedBy` list only
when that list matches the mapping's keys). -/
theorem c2_lookup_error_amended :
    (∀ (d : Destination) (c : String), dictGet d.subscriptions c = none →
      d.get_subscription c =
        .error (.unknownConsumer c d.name (dictKeys d.subscriptions))) ∧
    (∀ (t : Topic) (c : String), dictGet t.subscriptions c = none →
      (destinationOfTopic t).get_subscription c =
        .error (.unknownConsumer c t.name (dictKeys t.subscriptions))) := by
  constructor
  · intro d c h
    simp [Destination.get_subscription, h]
  · intro t c h
    simp [Destination.get_subscription, destinationOfTopic, h]

/-- Witness for C2 (amended) at `mismatchTopic`. -/
theorem c2_lookup_error_amended_witness :
    (destinationOfTopic mismatchTopic).get_subscription "gamma" =
      .error (.unknownConsumer "gamma" mismatchTopic.name
        (dictKeys mismatchTopic.subscriptions)) :=
  c2_lookup_error_amended.2 mismatchTopic "gamma" rfl

/-! ### Claim C3 -/

/-- Topology file in which the payload kind is `command` but the event
reference resolves. -/
def commandKindDoc : TopicDoc :=
  { nameField := some "topic-one"
    topicField := some "aegis-test.alpha.one"
    descriptionField := none
    producedByField := some ["producer-one"]
    consumedByField := some ["consumer-one"]
    subscriptionsField := some [("consumer-one", "consumer-one.aegis-test.alpha.one")]
    payloadField := some ⟨some "GoodEventV1", some "command"⟩ }

/-- Topology file whose event reference resolves to no loaded event. -/
def danglingRefDoc : TopicDoc :=
  { nameField := some "topic-two"
    topicField := some "aegis-test.alpha.two"
    descriptionField := none
    producedByField := some ["producer-two"]
    consumedByField := some ["consumer-two"]
    subscriptionsField := some [("consumer-two", "consumer-two.aegis-test.alpha.two")]
    payloadField := some ⟨some "MissingEventV1", none⟩ }

/-- Input whose first topic (in sorted file order) has a payload-kind
violation and whose second topic has an unresolved event reference. -/
def mixedViolationInput : GenInput :=
  { eventFiles := [("good-event.v1.json", [("title", "GoodEventV1")])]
    topicFiles := [("a-topic.yaml", commandKindDoc), ("b-topic.yaml", danglingRefDoc)] }

/-- The second loaded topic of `mixedViolationInput`. -/
def danglingRefTopic : Topic :=
  { name := "topic-two"
    topic := "aegis-test.alpha.two"
    description := ""
    produced_by := ["producer-two"]
    consumed_by := ["consumer-two"]
    subscriptions := [("consumer-two", "consumer-two.aegis-test.alpha.two")]
    event_schema := "MissingEventV1"
    event_type := "event" }

/-- C3 counterexample: a run in which a loaded topic (`topic-two`) has an
unresolved event reference, yet the run aborts with the
unsupported-payload-kind error of the earlier topic `topic-one`, not with
an unresolved-reference error; emission is still zero.  The claim holds
only when the unresolved reference is the first violation in topic-list
order. -/
theorem c3_unresolved_ref_counterexample :
    (danglingRefTopic ∈ loadedTopics mixedViolationInput) ∧
    dictGet (loadEvents mixedViolationInput.eventFiles)
      danglingRefTopic.event_schema = none ∧
    (run mixedViolationInput).2 =
      some (.validation (.badType "topic-one" "command")) ∧
    (run mixedViolationInput).2 ≠
      some (.validation (.unresolvedRef "topic-two" "MissingEventV1")) ∧
    (run mixedViolationInput).1 = [] := by
  decide

/-- C3 (corrected): when the first violation in topic-list order is an
unresolved event reference (each earlier topic resolves and is
event-kinded; within one topic the reference is checked before the kind),
validation aborts with the unresolved-reference error naming the offending
topic and reference; a validation failure surfaces as the run's error with
the empty write list; and any failing run performs zero emission. -/
theorem c3_unresolved_ref_amended :
    (∀ (events : List (String × Event)) (pre post : List Topic) (t : Topic),
      (∀ u ∈ pre, (dictGet events u.event_schema).isSome ∧
        u.event_type = "event") →
      dictGet events t.event_schema = none →
      validate events (pre ++ t :: post) =
        .error (.unresolvedRef t.name t.event_schema)) ∧
    (∀ (input : GenInput) (tps : List Topic)
        (doms : List (String × List Topic)) (e : ValidationError),
      loadTopics input.topicFiles = .ok (tps, doms) →
      validate (loadEvents input.eventFiles) tps = .error e →
      run input = ([], some (.validation e))) ∧
    (∀ (input : GenInput) (e : GenError),
      (run input).2 = some e → (run input).1 = []) := by
  refine ⟨?_, ?_, ?_⟩
  · intro events pre post t hpre ht
    induction pre with
    | nil =>
      simp [validate, ht]
    | cons u pre ih =>
      have hu := hpre u (List.mem_cons_self u pre)
      have hrest : ∀ v ∈ pre, (dictGet events v.event_schema).isSome ∧
          v.event_type = "event" :=
        fun v hv => hpre v (List.mem_cons_of_mem u hv)
      have hnone : ¬ (dictGet events u.event_schema).isNone = true := by
        simp [Option.isNone_iff_eq_none]
        intro hc
        rw [hc] at hu
        exact absurd hu.1 (by simp)
      simpa [validate, hnone, hu.2] using ih hrest
  · intro input tps doms e h₁ h₂
    simp [run, h₁, h₂]
  · intro input e h
    cases hl : loadTopics input.topicFiles with
    | error e₀ => simp [run, hl]
    | ok p =>
      obtain ⟨tps, doms⟩ := p
      cases hv : validate (loadEvents input.eventFiles) tps with
      | error e₀ => simp [run, hl, hv]
      | ok u =>
        cases hg : generateAsyncapi (loadEvents input.eventFiles) tps with
        | error r => simp [run, hl, hv, hg]
        | ok doc => simp [run, hl, hv, hg] at h

/-- Witness for C3 (amended): the unresolved reference of `topic-two` is
the first violation once the earlier topic is valid, and a failing run
writes nothing. -/
theorem c3_unresolved_ref_amended_witness :
    validate (loadEvents mixedViolationInput.eventFiles)
        ([] ++ danglingRefTopic :: []) =
      .error (.unresolvedRef "topic-two" "MissingEventV1") ∧
    (run mixedViolationInput).1 = [] :=
  ⟨c3_unresolved_ref_amended.1 (loadEvents mixedViolationInput.eventFiles)
      [] [] danglingRefTopic (by decide) (by decide),
   c3_unresolved_ref_amended.2.2 mixedViolationInput
      (.validation (.badType "topic-one" "command")) (by decide)⟩

/-! ### Claim C8 -/

/-- Topology file with payload kind `command` and an unresolved event
reference at once. -/
def commandAndDanglingDoc : TopicDoc :=
  { nameField := some "cmd-topic"
    topicField := some "aegis-test.cmd.topic"
    descriptionField := none
    producedByField := some ["svc"]
    consumedByField := some ["worker"]
    subscriptionsField := some [("worker", "worker.aegis-test.cmd.topic")]
    payloadField := some ⟨some "MissingEventV1", some "command"⟩ }

/-- Input with no events and the one doubly-invalid topic. -/
def commandAndDanglingInput : GenInput :=
  { eventFiles := []
    topicFiles := [("cmd-topic.yaml", commandAndDanglingDoc)] }

/-- The topic `commandAndDanglingInput` loads. -/
def commandAndDanglingTopic : Topic :=
  { name := "cmd-topic"
    topic := "aegis-test.cmd.topic"
    description := ""
    produced_by := ["svc"]
    consumed_by := ["worker"]
    subscriptions := [("worker", "worker.aegis-test.cmd.topic")]
    event_schema := "MissingEventV1"
    event_type := "command" }

/-- C8 counterexample: a loaded topic declares payload kind `command`, yet
the run aborts with the unresolved-reference error, not the
unsupported-payload-kind error, because `validate` checks the event
reference of a topic before its kind. -/
theorem c8_payload_kind_counterexample :
    loadedTopics commandAndDanglingInput = [commandAndDanglingTopic] ∧
    commandAndDanglingTopic.event_type = "command" ∧
    (run commandAndDanglingInput).2 =
      some (.validation (.unresolvedRef "cmd-topic" "MissingEventV1")) ∧
    (run commandAndDanglingInput).2 ≠
      some (.validation (.badType "cmd-topic" "command")) := by
  decide

/-- C8 (corrected): when the first violation in topic-list order is a
payload kind other than `event` (each earlier topic fully valid, and the
offending topic's own event reference resolving, since the reference is
checked first), validation aborts with the unsupported-payload-kind error
naming the topic and the kind; and a topology file whose payload object
omits the `type` field is assigned payload kind `event`, which passes the
kind check. -/
theorem c8_payload_kind_amended :
    (∀ (events : List (String × Event)) (pre post : List Topic) (t : Topic),
      (∀ u ∈ pre, (dictGet events u.event_schema).isSome ∧
        u.event_type = "event") →
      (dictGet events t.event_schema).isSome →
      t.event_type ≠ "event" →
      validate events (pre ++ t :: post) =
        .error (.badType t.name t.event_type)) ∧
    (∀ (file : String) (doc : TopicDoc) (t : Topic) (p : PayloadDoc),
      parseTopic file doc = .ok t → doc.payloadField = some p →
      p.typeField = none → t.event_type = "event") ∧
    (∀ (events : List (String × Event)) (t : Topic),
      (dictGet events t.event_schema).isSome → t.event_type = "event" →
      validate events [t] = .ok ()) := by
  refine ⟨?_, ?_, ?_⟩
  · intro events pre post t hpre ht hkind
    induction pre with
    | nil =>
      have hnone : ¬ (dictGet events t.event_schema).isNone = true := by
        simp [Option.isNone_iff_eq_none]
        intro hc
        rw [hc] at ht
        exact absurd ht (by simp)
      simp [validate, hnone, hkind]
    | cons u pre ih =>
      have hu := hpre u (List.mem_cons_self u pre)
      have hrest : ∀ v ∈ pre, (dictGet events v.event_schema).isSome ∧
          v.event_type = "event" :=
        fun v hv => hpre v (List.mem_cons_of_mem u hv)
      have hnone : ¬ (dictGet events u.event_schema).isNone = true := by
        simp [Option.isNone_iff_eq_none]
        intro hc
        rw [hc] at hu
        exact absurd hu.1 (by simp)
      simpa [validate, hnone, hu.2] using ih hrest
  · intro file doc t p hok hp ht
    rw [parseTopic] at hok
    split at hok
    · exact absurd hok (by simp)
    · split at hok
      · exact absurd hok (by simp)
      · split at hok
        · exact absurd hok (by simp)
        · split at hok
          · exact absurd hok (by simp)
          · split at hok
            · exact absurd hok (by simp)
            · split at hok
              · exact absurd hok (by simp)
              · rw [Except.ok.injEq] at hok
                rw [← hok]
                simp [hp, ht]
  · intro events t ht hkind
    have hnone : ¬ (dictGet events t.event_schema).isNone = true := by
      simp [Option.isNone_iff_eq_none]
      intro hc
      rw [hc] at ht
      exact absurd ht (by simp)
    simp [validate, hnone, hkind]

/-- Witness for C8 (amended): a first-violation `command` kind yields the
kind error; omitting `type` in a payload yields kind `event`, which
passes. -/
theorem c8_payload_kind_amended_witness :
    validate [("MissingEventV1",
        { name := "missing-event", schema_path := "", schema := [] })]
      ([] ++ commandAndDanglingTopic :: []) =
      .error (.badType "cmd-topic" "command") ∧
    danglingRefTopic.event_type = "event" ∧
    validate [("MissingEventV1",
        { name := "missing-event", schema_path := "", schema := [] })]
      [danglingRefTopic] = .ok () :=
  ⟨c8_payload_kind_amended.1 _ [] [] commandAndDanglingTopic (by decide)
      (by decide) (by decide),
   c8_payload_kind_amended.2.1 "b-topic.yaml" danglingRefDoc danglingRefTopic
      ⟨some "MissingEventV1", none⟩ (by decide) rfl rfl,
   c8_payload_kind_amended.2.2 _ danglingRefTopic (by decide) rfl⟩

/-! ### Claim C4 -/

/-- `joinSep` over a first-group/rest pair. -/
def joinParts (sep : Char) (p : List Char × List (List Char)) : List Char :=
  joinSep sep (p.1 :: p.2)

theorem joinSep_cons_cons (sep c : Char) (g : List Char)
    (gs : List (List Char)) :
    joinSep sep ((c :: g) :: gs) = c :: joinSep sep (g :: gs) := by
  cases gs with
  | nil => rfl
  | cons h t => rfl

theorem joinParts_splitChunks (cs : List Char) :
    joinParts '_' (splitChunks '-' cs) =
      cs.map fun c => if c = '-' then '_' else c := by
  induction cs with
  | nil => rfl
  | cons c cs ih =>
    by_cases hc : c = '-'
    · subst hc
      show joinParts '_'
        (let r := splitChunks '-' cs
         if ('-' : Char) = '-' then ([], r.1 :: r.2) else ('-' :: r.1, r.2)) = _
      rw [if_pos rfl]
      show '_' :: joinParts '_' (splitChunks '-' cs) = _
      rw [ih]
      simp
    · show joinParts '_'
        (let r := splitChunks '-' cs
         if c = '-' then ([], r.1 :: r.2) else (c :: r.1, r.2)) = _
      rw [if_neg hc]
      show joinSep '_' ((c :: (splitChunks '-' cs).1) :: (splitChunks '-' cs).2) = _
      rw [joinSep_cons_cons]
      show c :: joinParts '_' (splitChunks '-' cs) = _
      rw [ih]
      simp [hc]

theorem joinSep_pySplitL (cs : List Char) :
    joinSep '_' (pySplitL '-' cs) =
      cs.map fun c => if c = '-' then '_' else c :=
  joinParts_splitChunks cs

/-- C4 (confirmed): the constant-name and type-name transforms are pure
functions of the semantic name; the constant-name transform is exactly
uppercase-then-replace-hyphens-by-underscores; the type-name transform
yields the PascalCase form on the documented example; and all four source
sites of the constant transform (the `Topic` method, the Java class
emitter, the Java registry emitter and the Python registry emitter)
compute the same mapping. -/
theorem c4_naming_transforms :
    javaClassConstName "specification-created" = "SPECIFICATION_CREATED" ∧
    javaClassName "specification-created" = "SpecificationCreated" ∧
    (∀ s : String, javaClassConstName s = pyReplaceChar '-' '_' (pyUpper s)) ∧
    (∀ t : Topic, t.get_java_constant_name = javaClassConstName t.name) ∧
    (∀ s : String, javaRegistryConstName s = javaClassConstName s) ∧
    (∀ s : String, pythonConstName s = javaClassConstName s) := by
  refine ⟨by decide, by decide, ?_, fun t => rfl, fun s => rfl, fun s => rfl⟩
  intro s
  show String.mk (joinSep '_' (pySplitL '-' (pyUpper s).data)) = _
  rw [joinSep_pySplitL]
  rfl

/-! ### Claim C9 -/

theorem breakAtFirst_of_not_mem (sep : Char) (cs : List Char)
    (h : sep ∉ cs) : breakAtFirst sep cs = none := by
  induction cs with
  | nil => rfl
  | cons c cs ih =>
    simp only [List.mem_cons] at h
    push_neg at h
    have hc : ¬ c = sep := fun hc => h.1 hc.symm
    simp [breakAtFirst, hc, ih h.2]

theorem breakAtFirst_append (sep : Char) (xs ys : List Char)
    (h : sep ∉ xs) : breakAtFirst sep (xs ++ sep :: ys) = some (xs, ys) := by
  induction xs with
  | nil => simp [breakAtFirst]
  | cons x xs ih =>
    simp only [List.mem_cons] at h
    push_neg at h
    have hx : ¬ x = sep := fun hc => h.1 hc.symm
    simp [breakAtFirst, hx, ih h.2]

/-- The unconditional stripping rule of `load_events` on compound names:
for any dot-free `s` and `v`, the file `s ++ "." ++ v ++ ".json"` yields
base identifier `s`, whether or not `v` looks like a version segment. -/
theorem baseNameOf_compound (s v : String)
    (hv : ('.' : Char) ∉ v.data) :
    baseNameOf (s ++ "." ++ v ++ ".json") = s := by
  have hdata : (s ++ "." ++ v ++ ".json").data =
      s.data ++ '.' :: (v.data ++ '.' :: ['j', 's', 'o', 'n']) := by
    simp [String.data_append]
  have hjson : ('.' : Char) ∉ ['n', 'o', 's', 'j'] := by decide
  have hrev : (s.data ++ '.' :: (v.data ++ '.' :: ['j', 's', 'o', 'n'])).reverse =
      ['n', 'o', 's', 'j'] ++ '.' :: (v.data.reverse ++ '.' :: s.data.reverse) := by
    simp
  have hstem : pyStemL (s ++ "." ++ v ++ ".json").data =
      s.data ++ '.' :: v.data := by
    rw [pyStemL, hdata, hrev, breakAtFirst_append '.' _ _ hjson]
    have hne : v.data.reverse ++ '.' :: s.data.reverse ≠ [] := by simp
    simp [hne]
  rw [baseNameOf, hstem, rsplitHeadL]
  have hrev₂ : (s.data ++ '.' :: v.data).reverse =
      v.data.reverse ++ '.' :: s.data.reverse := by
    simp
  rw [hrev₂, breakAtFirst_append '.' _ _ (by simpa using hv)]
  simp

/-- Does a character list look like a version segment: `v` followed by
one or more decimal digits.  (Following the claim wording, for the
refinement comparison with the implemented rule.) -/
def isVersionSegment : List Char → Bool
  | 'v' :: ds => !ds.isEmpty && ds.all fun c => '0' ≤ c && c ≤ '9'
  | _ => false

/-- Base-identifier derivation as the claim words it: strip the extension,
then strip the trailing dot-segment only when it looks like a version
segment.  (Following the claim wording, for the refinement comparison with
the implemented rule.) -/
def claimBaseNameOf (filename : String) : String :=
  let st := pyStemL filename.data
  match breakAtFirst '.' st.reverse with
  | none => ⟨st⟩
  | some (sufRev, preRev) =>
    if isVersionSegment sufRev.reverse then ⟨preRev.reverse⟩ else ⟨st⟩

/-- C9 counterexample: the loader strips the last dot-segment of the stem
unconditionally, not only when it looks like a version segment.  On
`my.event.json` the code yields `my` while the claim's rule keeps
`my.event` (`event` is not version-segment-looking); the two rules agree
on the documented `specification-created.v1.json`. -/
theorem c9_base_identifier_counterexample :
    baseNameOf "my.event.json" = "my" ∧
    claimBaseNameOf "my.event.json" = "my.event" ∧
    baseNameOf "my.event.json" ≠ claimBaseNameOf "my.event.json" ∧
    baseNameOf "specification-created.v1.json" = "specification-created" ∧
    claimBaseNameOf "specification-created.v1.json" = "specification-created" := by
  decide

/-- C9 (corrected): the loader derives the base identifier by stripping
the extension and then the last remaining dot-segment when one exists,
version-segment-looking or not (`specification-created.v1.json` yields
`specification-created`, but `my.event.json` yields `my`); the schema
identifier under which the event is stored is the document's declared
title when present, falling back to the base identifier when absent. -/
theorem c9_base_identifier_amended :
    baseNameOf "specification-created.v1.json" = "specification-created" ∧
    baseNameOf "my.event.json" = "my" ∧
    baseNameOf "plain.json" = "plain" ∧
    (∀ s v : String, ('.' : Char) ∉ v.data →
      baseNameOf (s ++ "." ++ v ++ ".json") = s) ∧
    (∀ (fn : String) (doc : SchemaDoc) (t : String),
      dictGet doc "title" = some t →
      (eventOfFile (fn, doc)).schema_name = t) ∧
    (∀ (fn : String) (doc : SchemaDoc),
      dictGet doc "title" = none →
      (eventOfFile (fn, doc)).schema_name = baseNameOf fn) := by
  refine ⟨by decide, by decide, by decide, baseNameOf_compound, ?_, ?_⟩
  · intro fn doc t h
    simp [Event.schema_name, eventOfFile, h]
  · intro fn doc h
    simp [Event.schema_name, eventOfFile, h]

/-- Witness for C9 (amended) at the documented example filename and at
concrete schema documents with and without a title. -/
theorem c9_base_identifier_amended_witness :
    baseNameOf ("specification-created" ++ "." ++ "v1" ++ ".json") =
      "specification-created" ∧
    (eventOfFile ("specification-created.v1.json",
        [("title", "SpecificationCreatedEventV1")])).schema_name =
      "SpecificationCreatedEventV1" ∧
    (eventOfFile ("specification-created.v1.json",
        [("description", "no title here")])).schema_name =
      baseNameOf "specification-created.v1.json" :=
  ⟨c9_base_identifier_amended.2.2.2.1 "specification-created" "v1"
      (by decide),
   c9_base_identifier_amended.2.2.2.2.1 "specification-created.v1.json"
      [("title", "SpecificationCreatedEventV1")]
      "SpecificationCreatedEventV1" rfl,
   c9_base_identifier_amended.2.2.2.2.2 "specification-created.v1.json"
      [("description", "no title here")] rfl⟩

/-! ### Claim C10 -/

/-- C10 (confirmed): the emitted `EventType` enumeration has one member
per loaded topic (never one per distinct event reference): members appear
in order of event reference, each named by the uppercased reference and
valued by its topic's wire-level topic string, and the number of members
carrying a given name equals the number of topics whose uppercased
reference is that name — so two distinct topics sharing one event
reference yield two identically named members, with no per-event
deduplication at this emitter. -/
theorem count_map_eq_length_filter {β : Type _} [DecidableEq β]
    (g : Topic → β) (l : List Topic) (n : β) :
    (l.map g).count n = (l.filter fun t => g t = n).length := by
  induction l with
  | nil => rfl
  | cons t ts ih =>
    by_cases h : g t = n
    · simp [List.count_cons, h, ih, List.filter_cons]
    · simp [List.count_cons, h, ih, List.filter_cons]

theorem c10_event_type_members :
    ∀ topics : List Topic,
      (eventTypeMembers topics).length = topics.length ∧
      (∀ n : String, ((eventTypeMembers topics).map Prod.fst).count n =
        (topics.filter fun t => pyUpper t.event_schema = n).length) ∧
      List.Pairwise (fun a b => strLe a b = true)
        ((sortByKey Topic.event_schema topics).map Topic.event_schema) ∧
      eventTypeMembers topics =
        (sortByKey Topic.event_schema topics).map fun t =>
          (pyUpper t.event_schema, t.topic) := by
  intro topics
  refine ⟨?_, ?_, ?_, rfl⟩
  · rw [eventTypeMembers, List.length_map]
    exact (perm_sortByKey Topic.event_schema topics).length_eq
  · intro n
    have hmap : (eventTypeMembers topics).map Prod.fst =
        (sortByKey Topic.event_schema topics).map
          fun t => pyUpper t.event_schema := by
      simp [eventTypeMembers, List.map_map]
    rw [hmap]
    have hperm :
        List.Perm
          ((sortByKey Topic.event_schema topics).map
            fun t => pyUpper t.event_schema)
          (topics.map fun t => pyUpper t.event_schema) :=
      (perm_sortByKey Topic.event_schema topics).map _
    rw [hperm.count_eq]
    exact count_map_eq_length_filter _ topics n
  · exact (keySorted_sortByKey Topic.event_schema topics).map
      Topic.event_schema (fun a b h => h)

/-! ### Claim C5 -/

/-- Invariant of the `generate_asyncapi` loop, generalized over the
accumulated document: channels grow by one keyed entry per topic (fresh
names), while messages and schemas grow by one entry per event reference
not already present, in first-occurrence order. -/
theorem asyncapiFold (events : List (String × Event)) :
    ∀ (topics : List Topic) (st : AsyncApiDoc),
      (∀ t ∈ topics, (dictGet events t.event_schema).isSome) →
      dictKeys st.schemas = dictKeys st.messages →
      (dictKeys st.channels ++ topics.map Topic.name).Nodup →
      topics.foldlM (asyncapiStep events) st = .ok
        { channels := st.channels ++ topics.map fun t => (t.name, channelOfTopic t)
          messages := st.messages ++
            (dedupFrom (dictKeys st.messages) (topics.map Topic.event_schema)).map
              fun r => (r, messageEntry events r)
          schemas := st.schemas ++
            (dedupFrom (dictKeys st.messages) (topics.map Topic.event_schema)).map
              fun r => (r, schemaBody events r) } := by
  intro topics
  induction topics with
  | nil =>
    intro st _ _ _
    simp only [List.map_nil, dedupFrom, List.append_nil, List.foldlM_nil]
    rfl
  | cons t ts ih =>
    intro st hres halign hnodup
    obtain ⟨e, he⟩ :=
      Option.isSome_iff_exists.mp (hres t (List.mem_cons_self t ts))
    have hstep : asyncapiStep events st t = .ok
        { channels := dictInsert t.name (channelOfTopic t) st.channels
          messages :=
            if (dictGet st.messages t.event_schema).isSome then st.messages
            else st.messages ++
              [(t.event_schema, messageOfEvent t.event_schema e)]
          schemas :=
            if (dictGet st.schemas t.event_schema).isSome then st.schemas
            else st.schemas ++ [(t.event_schema, e.schema)] } := by
      rw [asyncapiStep, he]
    have hnotmem : t.name ∉ dictKeys st.channels := by
      rcases List.nodup_append.mp (by simpa using hnodup) with ⟨h₁, h₂, hdisj⟩
      intro hc
      exact hdisj hc (List.mem_cons_self t.name (ts.map Topic.name))
    have hchan : dictInsert t.name (channelOfTopic t) st.channels =
        st.channels ++ [(t.name, channelOfTopic t)] :=
      dictInsert_of_not_mem _ _ _ hnotmem
    have hresrest : ∀ u ∈ ts, (dictGet events u.event_schema).isSome :=
      fun u hu => hres u (List.mem_cons_of_mem t hu)
    have hnodup' :
        (dictKeys (st.channels ++ [(t.name, channelOfTopic t)]) ++
          ts.map Topic.name).Nodup := by
      simp only [dictKeys, List.map_append, List.map_cons, List.map_nil]
      rw [List.append_assoc]
      simpa using hnodup
    have hmemiff : (dictGet st.schemas t.event_schema).isSome =
        (dictGet st.messages t.event_schema).isSome := by
      by_cases hm : t.event_schema ∈ dictKeys st.messages
      · have h₁ : (dictGet st.messages t.event_schema).isSome = true :=
          (dictGet_isSome_iff _ _).mpr hm
        have hm' : t.event_schema ∈ dictKeys st.schemas := by
          rw [halign]; exact hm
        have h₂ : (dictGet st.schemas t.event_schema).isSome = true :=
          (dictGet_isSome_iff _ _).mpr hm'
        rw [h₁, h₂]
      · have h₁ : ¬ (dictGet st.messages t.event_schema).isSome = true :=
          fun hc => hm ((dictGet_isSome_iff _ _).mp hc)
        have h₂ : ¬ (dictGet st.schemas t.event_schema).isSome = true := by
          intro hc
          have hmem₂ := (dictGet_isSome_iff _ _).mp hc
          rw [halign] at hmem₂
          exact hm hmem₂
        rw [Bool.eq_false_iff.mpr h₂, Bool.eq_false_iff.mpr h₁]
    rw [List.foldlM_cons, hstep]
    by_cases hmem : (dictGet st.messages t.event_schema).isSome = true
    · have hmemk : t.event_schema ∈ dictKeys st.messages :=
        (dictGet_isSome_iff _ _).mp hmem
      have hmems : (dictGet st.schemas t.event_schema).isSome = true := by
        rw [hmemiff]; exact hmem
      rw [if_pos hmem, if_pos hmems]
      show ts.foldlM (asyncapiStep events)
        { channels := dictInsert t.name (channelOfTopic t) st.channels
          messages := st.messages
          schemas := st.schemas } = _
      rw [hchan]
      rw [ih { channels := st.channels ++ [(t.name, channelOfTopic t)]
               messages := st.messages
               schemas := st.schemas } hresrest halign hnodup']
      simp [dedupFrom, hmemk, List.append_assoc]
    · have hnotk : t.event_schema ∉ dictKeys st.messages :=
        fun hc => hmem ((dictGet_isSome_iff _ _).mpr hc)
      have hmems : ¬ (dictGet st.schemas t.event_schema).isSome = true := by
        rw [hmemiff]; exact hmem
      rw [if_neg hmem, if_neg hmems]
      show ts.foldlM (asyncapiStep events)
        { channels := dictInsert t.name (channelOfTopic t) st.channels
          messages := st.messages ++
            [(t.event_schema, messageOfEvent t.event_schema e)]
          schemas := st.schemas ++ [(t.event_schema, e.schema)] } = _
      rw [hchan]
      have halign' : dictKeys (st.schemas ++ [(t.event_schema, e.schema)]) =
          dictKeys (st.messages ++
            [(t.event_schema, messageOfEvent t.event_schema e)]) := by
        simp only [dictKeys, List.map_append, List.map_cons, List.map_nil]
        exact congrArg (· ++ [t.event_schema]) halign
      rw [ih { channels := st.channels ++ [(t.name, channelOfTopic t)]
               messages := st.messages ++
                 [(t.event_schema, messageOfEvent t.event_schema e)]
               schemas := st.schemas ++ [(t.event_schema, e.schema)] }
            hresrest halign' hnodup']
      simp only [dictKeys] at hnotk
      simp [dedupFrom, hnotk, dictKeys, messageEntry, schemaBody, he,
        List.append_assoc]

/-- C5 (confirmed): with pairwise-distinct topic names (the data model's
uniqueness invariant) and resolving references (guaranteed by validation),
the emitted document has exactly one channel entry per loaded topic keyed
by its semantic name, and exactly one message entry and one schema entry
per distinct event reference string, in first-occurrence order, the schema
entry holding the event's raw schema body verbatim; two topics sharing one
reference collapse to a single shared message/schema entry. -/
theorem c5_asyncapi_document :
    ∀ (events : List (String × Event)) (topics : List Topic),
      (topics.map Topic.name).Nodup →
      (∀ t ∈ topics, (dictGet events t.event_schema).isSome) →
      generateAsyncapi events topics = .ok
        { channels := topics.map fun t => (t.name, channelOfTopic t)
          messages := (firstDedup (topics.map Topic.event_schema)).map
            fun r => (r, messageEntry events r)
          schemas := (firstDedup (topics.map Topic.event_schema)).map
            fun r => (r, schemaBody events r) } ∧
      (firstDedup (topics.map Topic.event_schema)).Nodup ∧
      (∀ r : String, r ∈ firstDedup (topics.map Topic.event_schema) ↔
        r ∈ topics.map Topic.event_schema) ∧
      (∀ (r : String) (e : Event), dictGet events r = some e →
        schemaBody events r = e.schema) := by
  intro events topics hn hres
  refine ⟨?_, nodup_firstDedup _, fun r => mem_firstDedup _ r, ?_⟩
  · have h := asyncapiFold events topics ⟨[], [], []⟩ hres rfl (by simpa using hn)
    simpa [generateAsyncapi, firstDedup, dictKeys] using h
  · intro r e he
    simp [schemaBody, he]

/-- Event shared by the two witness topics. -/
def sharedEvent : Event :=
  { name := "shared-event"
    schema_path := "events/shared-event.v1.json"
    schema := [("title", "SharedEventV1"), ("description", "A shared event")] }

/-- Witness events dict. -/
def c5Events : List (String × Event) :=
  [("SharedEventV1", sharedEvent)]

/-- First witness topic referencing the shared event. -/
def c5TopicA : Topic :=
  { name := "alpha-created"
    topic := "aegis-test.alpha.created"
    description := "Alpha created"
    produced_by := ["alpha-svc"]
    consumed_by := ["worker"]
    subscriptions := [("worker", "worker.aegis-test.alpha.created")]
    event_schema := "SharedEventV1"
    event_type := "event" }

/-- Second witness topic referencing the same shared event. -/
def c5TopicB : Topic :=
  { name := "beta-created"
    topic := "aegis-test.beta.created"
    description := "Beta created"
    produced_by := ["beta-svc"]
    consumed_by := ["worker"]
    subscriptions := [("worker", "worker.aegis-test.beta.created")]
    event_schema := "SharedEventV1"
    event_type := "event" }

/-- Witness for C5: two topics sharing one event reference produce two
channel entries but a single shared message entry and schema entry. -/
theorem c5_asyncapi_document_witness :
    generateAsyncapi c5Events [c5TopicA, c5TopicB] = .ok
      { channels := [c5TopicA, c5TopicB].map fun t => (t.name, channelOfTopic t)
        messages := (firstDedup ([c5TopicA, c5TopicB].map Topic.event_schema)).map
          fun r => (r, messageEntry c5Events r)
        schemas := (firstDedup ([c5TopicA, c5TopicB].map Topic.event_schema)).map
          fun r => (r, schemaBody c5Events r) } ∧
    firstDedup ([c5TopicA, c5TopicB].map Topic.event_schema) =
      ["SharedEventV1"] ∧
    schemaBody c5Events "SharedEventV1" = sharedEvent.schema := by
  have h := c5_asyncapi_document c5Events [c5TopicA, c5TopicB]
    (by decide) (by decide)
  exact ⟨h.1, by decide, h.2.2.2 "SharedEventV1" sharedEvent rfl⟩

/-! ### Claim C6 -/

/-- C6 (confirmed): the pipeline output is a function of the input file
sets alone.  Two runs over the same event and topic files — even when the
directory enumeration hands the files over in different orders, the only
run-to-run variation possible in the embedded pipeline — produce identical
artifacts, because both loaders sort by filename and every later stage is
deterministic in the loaded model.  Filenames within one directory are
pairwise distinct. -/
theorem c6_determinism :
    ∀ input₁ input₂ : GenInput,
      List.Perm input₁.eventFiles input₂.eventFiles →
      List.Perm input₁.topicFiles input₂.topicFiles →
      (input₁.eventFiles.map Prod.fst).Nodup →
      (input₁.topicFiles.map Prod.fst).Nodup →
      run input₁ = run input₂ := by
  intro input₁ input₂ hpe hpt hne hnt
  have he : sortByKey Prod.fst input₁.eventFiles =
      sortByKey Prod.fst input₂.eventFiles :=
    sortByKey_eq_of_perm Prod.fst _ _ hpe hne
  have ht : sortByKey Prod.fst input₁.topicFiles =
      sortByKey Prod.fst input₂.topicFiles :=
    sortByKey_eq_of_perm Prod.fst _ _ hpt hnt
  simp only [run, loadEvents, loadTopics, he, ht]

/-- A complete valid input: one shared event, two topics referencing it. -/
def validInput : GenInput :=
  { eventFiles := [("shared-event.v1.json", [("title", "SharedEventV1")])]
    topicFiles :=
      [("alpha-created.yaml",
        { nameField := some "alpha-created"
          topicField := some "aegis-test.alpha.created"
          descriptionField := some "Alpha created"
          producedByField := some ["alpha-svc"]
          consumedByField := some ["worker"]
          subscriptionsField := some [("worker", "worker.aegis-test.alpha.created")]
          payloadField := some ⟨some "SharedEventV1", some "event"⟩ }),
       ("beta-created.yaml",
        { nameField := some "beta-created"
          topicField := some "aegis-test.beta.created"
          descriptionField := some "Beta created"
          producedByField := some ["beta-svc"]
          consumedByField := some ["worker"]
          subscriptionsField := some [("worker", "worker.aegis-test.beta.created")]
          payloadField := some ⟨some "SharedEventV1", none⟩ })] }

/-- `validInput` with the topic directory enumerated in the opposite
order. -/
def validInputReordered : GenInput :=
  { eventFiles := validInput.eventFiles
    topicFiles := validInput.topicFiles.reverse }

/-- Witness for C6: the two enumerations of the same directory contents
generate identical artifacts. -/
theorem c6_determinism_witness :
    run validInput = run validInputReordered :=
  c6_determinism validInput validInputReordered (by decide) (by decide)
    (by decide) (by decide)

/-! ### Claim C7 -/

/-- Is this output file part of the Java target. -/
def isJavaFile (f : String × FileContent) : Bool :=
  match f.2 with
  | .javaClassFile _ => true
  | .javaRegistryFile _ => true
  | _ => false

/-- Is this output file part of the Python target. -/
def isPythonFile (f : String × FileContent) : Bool :=
  match f.2 with
  | .pyDestinationFile _ => true
  | .pyRegistryFile _ => true
  | _ => false

/-- The Java-target files of a write list. -/
def javaFilesOf (files : List (String × FileContent)) :
    List (String × FileContent) :=
  files.filter isJavaFile

/-- The Python-target files of a write list. -/
def pythonFilesOf (files : List (String × FileContent)) :
    List (String × FileContent) :=
  files.filter isPythonFile

/-- C7 counterexample: on a successful two-topic run the Python target
emits exactly two files — the destination module and the registry — and
no per-topic wrapper file, so its file count is `2`, not
`topics + 1 = 3` as the claim requires for every target; the Java target
does emit one file per topic plus the registry. -/
theorem c7_per_topic_files_counterexample :
    (run validInput).2 = none ∧
    (loadedTopics validInput).length = 2 ∧
    (pythonFilesOf (run validInput).1).map Prod.fst =
      [pyDestinationPath, pyTopicsPath] ∧
    (pythonFilesOf (run validInput).1).length ≠
      (loadedTopics validInput).length + 1 ∧
    (javaFilesOf (run validInput).1).length =
      (loadedTopics validInput).length + 1 := by
  decide

theorem javaFilter_map_topics (tps : List Topic) :
    List.filter isJavaFile (tps.map fun t =>
      (javaClassPath t, FileContent.javaClassFile (javaClassOf t))) =
      tps.map fun t =>
        (javaClassPath t, FileContent.javaClassFile (javaClassOf t)) := by
  induction tps with
  | nil => rfl
  | cons t ts ih => simp [List.filter_cons, isJavaFile, ih]

theorem pyFilter_map_topics (tps : List Topic) :
    List.filter isPythonFile (tps.map fun t =>
      (javaClassPath t, FileContent.javaClassFile (javaClassOf t))) = [] := by
  induction tps with
  | nil => rfl
  | cons t ts ih => simp [List.filter_cons, isPythonFile, ih]

/-- C7 (corrected): on every successful run the Java target emits one
wrapper source file per loaded topic, placed under its domain directory,
plus the one registry file; the Python target emits exactly two files, the
fixed destination module and the registry module, with no per-topic
wrapper files; the document is written before both. -/
theorem c7_per_topic_files_amended :
    ∀ (input : GenInput) (files : List (String × FileContent)),
      run input = (files, none) →
      (javaFilesOf files).map Prod.fst =
        (loadedTopics input).map javaClassPath ++ [javaRegistryPath] ∧
      (javaFilesOf files).length = (loadedTopics input).length + 1 ∧
      (pythonFilesOf files).map Prod.fst =
        [pyDestinationPath, pyTopicsPath] ∧
      (files.map Prod.fst).head? = some "asyncapi.yaml" := by
  intro input files h
  cases hl : loadTopics input.topicFiles with
  | error e => simp [run, hl] at h
  | ok p =>
    obtain ⟨tps, doms⟩ := p
    cases hv : validate (loadEvents input.eventFiles) tps with
    | error e => simp [run, hl, hv] at h
    | ok u =>
      cases hg : generateAsyncapi (loadEvents input.eventFiles) tps with
      | error r => simp [run, hl, hv, hg] at h
      | ok doc =>
        simp only [run, hl, hv, hg, Prod.mk.injEq] at h
        rw [← h.1]
        have hlt : loadedTopics input = tps := by
          simp [loadedTopics, hl]
        rw [hlt]
        refine ⟨?_, ?_, ?_, rfl⟩
        · simp [javaFilesOf, List.filter_cons, List.filter_append,
            javaFilter_map_topics, isJavaFile, List.map_append, List.map_map,
            Function.comp]
        · simp [javaFilesOf, List.filter_cons, List.filter_append,
            javaFilter_map_topics, isJavaFile, List.length_append,
            List.length_map]
        · simp [pythonFilesOf, List.filter_cons, List.filter_append,
            pyFilter_map_topics, isPythonFile]

/-- Witness for C7 (amended) on the valid two-topic input. -/
theorem c7_per_topic_files_amended_witness :
    (javaFilesOf (run validInput).1).map Prod.fst =
      (loadedTopics validInput).map javaClassPath ++ [javaRegistryPath] ∧
    (pythonFilesOf (run validInput).1).map Prod.fst =
      [pyDestinationPath, pyTopicsPath] := by
  have h := c7_per_topic_files_amended validInput (run validInput).1 (by decide)
  exact ⟨h.1, h.2.2.1⟩

end Aegis
